import Mathlib

/-!
Shallow embedding of the bounty-entry workflow of
`src/server/services/bountyEntry.service.ts`: awarding an entry,
marking a bounty complete, deleting an entry, upserting an entry,
and the benefactor-gated file listing.

The database is a record of lists of rows; Prisma transactions become
pure state transformation, where a thrown error leaves the database as
it was (the transaction rolls back).  The external Payment Ledger
(`createBuzzTransaction`) lives outside the database in a separate
`ledger` list, and whether the external call succeeds is a boolean
parameter of the operation.
-/

/-- The platform currency enum (Prisma `Currency`). -/
inductive Currency where
  | BUZZ
  | USD
deriving DecidableEq, Repr

/-- The transaction-type tag used when invoking the Payment Ledger. -/
inductive TransactionType where
  | Bounty
deriving DecidableEq, Repr

/-- A `Bounty` row: identifier and completion flag. -/
structure Bounty where
  id : Nat
  complete : Bool
deriving DecidableEq, Repr

/-- A `BountyEntry` row: identifier, parent bounty, nullable owner, description. -/
structure BountyEntry where
  id : Nat
  bountyId : Nat
  userId : Option Nat
  description : String
deriving DecidableEq, Repr

/-- A `BountyBenefactor` row: pledge of `unitAmount` in `currency` toward a
bounty by a user, with a nullable link to the awarded entry. -/
structure BountyBenefactor where
  bountyId : Nat
  userId : Nat
  unitAmount : Nat
  currency : Currency
  awardedToId : Option Nat
  awardedAt : Option Nat
deriving DecidableEq, Repr

/-- The `BountyEntryFileMeta` metadata attached to an entry file. -/
structure BountyEntryFileMeta where
  benefactorsOnly : Bool
  unlockAmount : Option Nat
deriving DecidableEq, Repr

/-- A `File` row tagged to an entity by `(entityId, entityType)`. -/
structure EntityFile where
  id : Nat
  entityId : Nat
  entityType : String
  url : String
  metadata : BountyEntryFileMeta
deriving DecidableEq, Repr

/-- An entry-file descriptor as returned by the filtered listing: the same
fields, except the URL may have been nulled. -/
structure FilteredFile where
  id : Nat
  entityId : Nat
  entityType : String
  url : Option String
  metadata : BountyEntryFileMeta
deriving DecidableEq, Repr

/-- An `ImageConnection` row linking an image to an entity. -/
structure ImageConnection where
  imageId : Nat
  entityId : Nat
  entityType : String
deriving DecidableEq, Repr

/-- An `Image` row (only the identifier matters here). -/
structure EntityImage where
  id : Nat
deriving DecidableEq, Repr

/-- A Payment Ledger transfer as invoked through `createBuzzTransaction`. -/
structure BuzzTransaction where
  fromAccountId : Nat
  toAccountId : Nat
  amount : Nat
  type : TransactionType
  description : String
deriving DecidableEq, Repr

/-- The database: one list of rows per table touched by the workflow. -/
structure Db where
  bounties : List Bounty
  entries : List BountyEntry
  benefactors : List BountyBenefactor
  files : List EntityFile
  imageConnections : List ImageConnection
  images : List EntityImage
deriving DecidableEq, Repr

/-- The full system state: the database plus the external Payment Ledger,
which records every transfer that has been carried out.  The ledger is
outside the database, so a transaction rollback does not undo it. -/
structure SysState where
  db : Db
  ledger : List BuzzTransaction
deriving DecidableEq, Repr

/-- How a service call fails: `notFound` models Prisma's
`findUniqueOrThrow`/`update` throwing on a missing row, `badRequest`
models `throwBadRequestError` (the spec's InvalidState), and
`externalFailure` models a failure of an external collaborator such as
the Payment Ledger. -/
inductive BountyError where
  | notFound
  | badRequest (message : String)
  | externalFailure
deriving DecidableEq, Repr

/-- `findUnique` on `BountyEntry` by id. -/
def Db.findEntry (db : Db) (id : Nat) : Option BountyEntry :=
  db.entries.find? (fun e => e.id == id)

/-- `findUnique` on `Bounty` by id (the nested `bounty` select). -/
def Db.findBounty (db : Db) (id : Nat) : Option Bounty :=
  db.bounties.find? (fun b => b.id == id)

/-- `findUnique` on `BountyBenefactor` by the unique key `bountyId_userId`. -/
def Db.findBenefactor (db : Db) (bountyId userId : Nat) : Option BountyBenefactor :=
  db.benefactors.find? (fun b => b.bountyId == bountyId && b.userId == userId)

/-- The summed awarded amount for one entry in one currency: the SQL in
`getBountyEntryEarnedBuzz` left-joins benefactors on
`awardedToId = entry.id AND currency = c` and sums `unitAmount`,
coalescing to 0. -/
def earnedUnitAmount (db : Db) (entryId : Nat) (currency : Currency) : Nat :=
  ((db.benefactors.filter
      (fun bb => bb.awardedToId == some entryId && bb.currency == currency)).map
    (fun bb => bb.unitAmount)).sum

/-- `getBountyEntryEarnedBuzz`: one `(id, awardedUnitAmount)` row per entry of
`ids` that exists, grouping the benefactor pledges awarded to it in the given
currency (the service's default currency is `BUZZ`). -/
def getBountyEntryEarnedBuzz (db : Db) (ids : List Nat) (currency : Currency) :
    List (Nat × Nat) :=
  ids.filterMap (fun i =>
    (db.findEntry i).map (fun e => (e.id, earnedUnitAmount db e.id currency)))

/-- Modelled from the spec: `getFilesByEntity` lives in
`file.service.ts`, which is not part of the sources; section 6 describes it as
`listFilesByEntity(entityId, entityType)` over an entity-tagged association
table keyed by `(entityId, entityType)` strings. -/
def getFilesByEntity (db : Db) (id : Nat) (entityType : String) : List EntityFile :=
  db.files.filter (fun f => f.entityId == id && f.entityType == entityType)

/-- Modelled from the spec: `updateEntityFiles` lives in `file.service.ts`,
which is not part of the sources; section 6 describes the file store as an
entity-tagged association table keyed by `(entityId, entityType)`, so updating
an entity's files replaces the rows tagged to that entity and touches no other
table. -/
def updateEntityFiles (db : Db) (entityId : Nat) (entityType : String)
    (files : List EntityFile) : Db :=
  { db with
    files :=
      db.files.filter (fun f => !(f.entityId == entityId && f.entityType == entityType))
        ++ files.map (fun f => { f with entityId := entityId, entityType := entityType }) }

/-- Modelled from the spec: `createEntityImages` lives in `image.service.ts`,
which is not part of the sources; section 6 describes the image store as an
entity-tagged association table, so creating entity images appends image rows
and their connections to the entity and touches no other table. -/
def createEntityImages (db : Db) (entityId : Nat) (entityType : String)
    (imageIds : List Nat) : Db :=
  { db with
    images := db.images ++ imageIds.map (fun i => ⟨i⟩),
    imageConnections :=
      db.imageConnections ++ imageIds.map (fun i => ⟨i, entityId, entityType⟩) }

/-- Modelled from the spec: `createBuzzTransaction` lives in
`buzz.service.ts`, which is not part of the sources; section 6 describes the
Payment Ledger as a synchronous external transfer that records the movement
and throws on failure.  `ok` says whether the external call succeeds. -/
def createBuzzTransaction (ok : Bool) (ledger : List BuzzTransaction)
    (t : BuzzTransaction) : Except BountyError (List BuzzTransaction) :=
  if ok then .ok (ledger ++ [t]) else .error .externalFailure

/-- The benefactor `update` of `awardBountyEntry`: set `awardedToId` and
`awardedAt` on the row with unique key `bountyId_userId`. -/
def Db.applyBenefactorAward (db : Db) (bountyId userId entryId now : Nat) : Db :=
  { db with
    benefactors := db.benefactors.map (fun bb =>
      if bb.bountyId == bountyId && bb.userId == userId then
        { bb with awardedToId := some entryId, awardedAt := some now }
      else bb) }

/-- The post-transaction `findFirst` of `awardBountyEntry`: is some benefactor
of the bounty still unawarded (`awardedToId = null`)? -/
def Db.hasUnawarded (db : Db) (bountyId : Nat) : Bool :=
  (db.benefactors.find?
    (fun bb => bb.awardedToId == none && bb.bountyId == bountyId)).isSome

/-- The `bounty.update` of `awardBountyEntry`: set `complete := true` on the
bounty row. -/
def Db.markComplete (db : Db) (bountyId : Nat) : Db :=
  { db with
    bounties := db.bounties.map (fun b =>
      if b.id == bountyId then { b with complete := true } else b) }

/-- The Payment Ledger transfer `awardBountyEntry` requests for a `BUZZ`
pledge: `unitAmount` from the reserved system account 0 to the entry owner,
tagged as a `Bounty` transaction. -/
def bountyAwardTransfer (owner amount : Nat) : BuzzTransaction :=
  { fromAccountId := 0, toAccountId := owner, amount := amount,
    type := TransactionType.Bounty,
    description := "Reason: Bounty entry has been awarded!" }

/-- `awardBountyEntry({id, userId})`.  Inside one transaction: fetch the entry
with its bounty (`findUniqueOrThrow`), reject an entry with no user, reject a
complete bounty, fetch the caller's benefactor row (`findUniqueOrThrow`),
reject an already-awarded benefactor, set `awardedToId`/`awardedAt`, and for a
`BUZZ` pledge invoke the Payment Ledger (amount `unitAmount`, from account 0
to the entry owner, type `Bounty`); other currencies do nothing.  A thrown
error rolls the database back.  After the transaction, if no benefactor of the
bounty is left unawarded, set the bounty's `complete` flag. -/
def awardBountyEntry (buzzOk : Bool) (now : Nat) (id userId : Nat) (s : SysState) :
    Except BountyError BountyBenefactor × SysState :=
  let tx : Except BountyError (Db × List BuzzTransaction × BountyBenefactor) :=
    match s.db.findEntry id with
    | none => .error .notFound
    | some entry =>
      match s.db.findBounty entry.bountyId with
      | none => .error .notFound
      | some bounty =>
        match entry.userId with
        | none => .error (.badRequest "Entry has no user.")
        | some entryUserId =>
          if bounty.complete then
            .error (.badRequest "Bounty is already complete.")
          else
            match s.db.findBenefactor entry.bountyId userId with
            | none => .error .notFound
            | some benefactor =>
              if benefactor.awardedToId.isSome then
                .error (.badRequest "Supporters has already awarded an entry.")
              else
                let updated :=
                  { benefactor with awardedToId := some entry.id, awardedAt := some now }
                let db' := s.db.applyBenefactorAward entry.bountyId userId entry.id now
                match updated.currency with
                | Currency.BUZZ =>
                  match createBuzzTransaction buzzOk s.ledger
                      (bountyAwardTransfer entryUserId updated.unitAmount) with
                  | .error e => .error e
                  | .ok ledger' => .ok (db', ledger', updated)
                | Currency.USD => .ok (db', s.ledger, updated)
  match tx with
  | .error e => (.error e, s)
  | .ok (db', ledger', benefactor) =>
    if db'.hasUnawarded benefactor.bountyId then
      (.ok benefactor, { db := db', ledger := ledger' })
    else
      (.ok benefactor, { db := db'.markComplete benefactor.bountyId, ledger := ledger' })

/-- `deleteBountyEntry({id})`: fetch the entry (`findUniqueOrThrow`), compute
its earned buzz (default currency `BUZZ`), reject a nonzero award total, then
in one transaction delete the entry, its tagged files, its image connections,
and the connected images. -/
def deleteBountyEntry (db : Db) (id : Nat) : Except BountyError BountyEntry × Db :=
  match db.findEntry id with
  | none => (.error .notFound, db)
  | some entry =>
    match (getBountyEntryEarnedBuzz db [entry.id] Currency.BUZZ).head? with
    | none => (.error .externalFailure, db)
    | some award =>
      if award.2 > 0 then
        (.error (.badRequest
          "This bounty entry has been awarded by some users and as such, cannot be deleted."),
          db)
      else
        let db1 := { db with entries := db.entries.filter (fun e => !(e.id == id)) }
        let db2 :=
          { db1 with
            files := db1.files.filter
              (fun f => !(f.entityId == id && f.entityType == "BountyEntry")) }
        let imageIds :=
          (db2.imageConnections.filter
            (fun c => c.entityId == id && c.entityType == "BountyEntry")).map
            (fun c => c.imageId)
        let db3 :=
          { db2 with
            imageConnections := db2.imageConnections.filter
              (fun c => !(c.entityId == id && c.entityType == "BountyEntry")) }
        let db4 := { db3 with images := db3.images.filter (fun i => !(imageIds.contains i.id)) }
        (.ok entry, db4)

/-- `upsertBountyEntry`: with an `id`, update the entry's description (Prisma
`update` throws on a missing row), then update its files and create its images
when those arguments are given; with no `id`, create a fresh entry (`newId`
stands for the id the database generates). -/
def upsertBountyEntry (db : Db) (id : Option Nat) (bountyId : Nat) (userId : Nat)
    (description : String) (files : Option (List EntityFile))
    (images : Option (List Nat)) (newId : Nat) :
    Except BountyError BountyEntry × Db :=
  match id with
  | some i =>
    match db.findEntry i with
    | none => (.error .notFound, db)
    | some entry =>
      let entry' := { entry with description := description }
      let db1 :=
        { db with
          entries := db.entries.map (fun e =>
            if e.id == i then { e with description := description } else e) }
      let db2 :=
        match files with
        | none => db1
        | some fs => updateEntityFiles db1 entry.id "BountyEntry" fs
      let db3 :=
        match images with
        | none => db2
        | some imgs => createEntityImages db2 entry.id "BountyEntry" imgs
      (.ok entry', db3)
  | none =>
    let entry : BountyEntry :=
      { id := newId, bountyId := bountyId, userId := some userId, description := description }
    let db1 := { db with entries := db.entries ++ [entry] }
    let db2 :=
      match files with
      | none => db1
      | some fs => updateEntityFiles db1 entry.id "BountyEntry" fs
    let db3 :=
      match images with
      | none => db2
      | some imgs => createEntityImages db2 entry.id "BountyEntry" imgs
    (.ok entry, db3)

/-- The owner test `bountyEntry.userId === userId` of
`getBountyEntryFilteredFiles`: TypeScript strict equality between a
`number | null` column and a `number | undefined` argument is true only when
both are numbers and equal. -/
def isEntryOwner : Option Nat → Option Nat → Bool
  | some a, some b => a == b
  | _, _ => false

/-- `getBountyEntryFilteredFiles({id, userId, isModerator})`: the owner and
moderators get every file with its URL; any other caller gets each file with
the URL nulled unless the file grants full access: not benefactors-only, or
the caller's benefactor row is the one awarded to this entry — and in either
case the entry's earned amount (in the caller's benefactor currency, default
`BUZZ`) at least the file's `unlockAmount` (default 0). -/
def getBountyEntryFilteredFiles (db : Db) (id : Nat) (userId : Option Nat)
    (isModerator : Bool) : Except BountyError (List FilteredFile) :=
  match db.findEntry id with
  | none => .error .notFound
  | some bountyEntry =>
    let files := getFilesByEntity db bountyEntry.id "BountyEntry"
    let isOwner := isEntryOwner bountyEntry.userId userId
    if isOwner || isModerator then
      .ok (files.map (fun f => ⟨f.id, f.entityId, f.entityType, some f.url, f.metadata⟩))
    else
      let benefactor :=
        match userId with
        | none => none
        | some uid => db.findBenefactor bountyEntry.bountyId uid
      let currency :=
        match benefactor with
        | some b => b.currency
        | none => Currency.BUZZ
      match (getBountyEntryEarnedBuzz db [bountyEntry.id] currency).head? with
      | none => .error .externalFailure
      | some awardedBounty =>
        .ok (files.map (fun f =>
          let details := f.metadata
          let access :=
            if details.benefactorsOnly then
              match benefactor with
              | some b => b.awardedToId == some bountyEntry.id
              | none => false
            else true
          let hasFullAccess :=
            if awardedBounty.2 < details.unlockAmount.getD 0 then false else access
          ⟨f.id, f.entityId, f.entityType, if hasFullAccess then some f.url else none,
            f.metadata⟩))

/-- Formalisation of the words of the deletion-guard claim: "the sum of
awarded pledge amounts over its benefactor awards", with no currency
restriction.  Compare with `earnedUnitAmount`, which the code uses and which
only counts pledges in one currency. -/
def awardedPledgeSum (db : Db) (entryId : Nat) : Nat :=
  ((db.benefactors.filter (fun bb => bb.awardedToId == some entryId)).map
    (fun bb => bb.unitAmount)).sum

/-- Does a service result carry the spec's InvalidState failure
(`throwBadRequestError`)? -/
def isInvalidState {α : Type} (r : Except BountyError α) : Bool :=
  match r with
  | .error (.badRequest _) => true
  | _ => false

/-- Sample state: bounty 1 (incomplete) with entry 10 owned by user 100 and
two unawarded 50-BUZZ benefactors, users 2 and 3 (the spec's section 8
scenario). -/
def sampleDb : Db :=
  { bounties := [⟨1, false⟩],
    entries := [⟨10, 1, some 100, "entry"⟩],
    benefactors := [⟨1, 2, 50, Currency.BUZZ, none, none⟩,
      ⟨1, 3, 50, Currency.BUZZ, none, none⟩],
    files := [], imageConnections := [], images := [] }

/-- `sampleDb` with an empty ledger. -/
def sampleState : SysState := { db := sampleDb, ledger := [] }

/-- The benefactor row user 2 holds after awarding entry 10 at time 7. -/
def sampleAwarded : BountyBenefactor := ⟨1, 2, 50, Currency.BUZZ, some 10, some 7⟩

/-- The system state after `awardBountyEntry` of entry 10 by user 2 at time 7
on `sampleState`. -/
def samplePost : SysState :=
  { db :=
      { bounties := [⟨1, false⟩],
        entries := [⟨10, 1, some 100, "entry"⟩],
        benefactors := [⟨1, 2, 50, Currency.BUZZ, some 10, some 7⟩,
          ⟨1, 3, 50, Currency.BUZZ, none, none⟩],
        files := [], imageConnections := [], images := [] },
    ledger := [bountyAwardTransfer 100 50] }

/-- A state with no rows at all. -/
def emptyState : SysState := { db := ⟨[], [], [], [], [], []⟩, ledger := [] }

/-- Bounty 1 (incomplete), entry 10 owned by user 100, and one benefactor
(user 2) whose 50-USD pledge is already awarded to entry 10. -/
def usdAwardDb : Db :=
  { bounties := [⟨1, false⟩],
    entries := [⟨10, 1, some 100, "entry"⟩],
    benefactors := [⟨1, 2, 50, Currency.USD, some 10, some 0⟩],
    files := [], imageConnections := [], images := [] }

/-- Bounty 1 (incomplete), entry 10 owned by user 100, and one benefactor
(user 2) whose 50-BUZZ pledge is already awarded to entry 10. -/
def buzzAwardDb : Db :=
  { bounties := [⟨1, false⟩],
    entries := [⟨10, 1, some 100, "entry"⟩],
    benefactors := [⟨1, 2, 50, Currency.BUZZ, some 10, some 0⟩],
    files := [], imageConnections := [], images := [] }

/-- `buzzAwardDb` with an empty ledger. -/
def buzzAwardState : SysState := { db := buzzAwardDb, ledger := [] }

/-- Like `buzzAwardDb`, but the bounty is already complete. -/
def completeDb : Db :=
  { bounties := [⟨1, true⟩],
    entries := [⟨10, 1, some 100, "entry"⟩],
    benefactors := [⟨1, 2, 50, Currency.BUZZ, some 10, some 0⟩],
    files := [], imageConnections := [], images := [] }

/-- `completeDb` with an empty ledger. -/
def completeState : SysState := { db := completeDb, ledger := [] }

/-- File-gating sample: entry 10 has earned 50 BUZZ (user 2's awarded
pledge); user 3 holds an unawarded 70-BUZZ pledge; the entry carries two
non-restricted files, one unlocking at 100 and one at 40. -/
def gatingDb : Db :=
  { bounties := [⟨1, false⟩],
    entries := [⟨10, 1, some 100, "entry"⟩],
    benefactors := [⟨1, 2, 50, Currency.BUZZ, some 10, some 0⟩,
      ⟨1, 3, 70, Currency.BUZZ, none, none⟩],
    files := [⟨1, 10, "BountyEntry", "urlA", ⟨false, some 100⟩⟩,
      ⟨2, 10, "BountyEntry", "urlB", ⟨false, some 40⟩⟩],
    imageConnections := [], images := [] }

/-- Mixed-currency file-gating sample: entry 10 has been awarded a 60-USD
pledge (user 2) and nothing in BUZZ; user 3 holds an unawarded 70-BUZZ
pledge; the entry carries one non-restricted file unlocking at 50. -/
def mixedGatingDb : Db :=
  { bounties := [⟨1, false⟩],
    entries := [⟨10, 1, some 100, "entry"⟩],
    benefactors := [⟨1, 2, 60, Currency.USD, some 10, some 0⟩,
      ⟨1, 3, 70, Currency.BUZZ, none, none⟩],
    files := [⟨1, 10, "BountyEntry", "urlA", ⟨false, some 50⟩⟩],
    imageConnections := [], images := [] }

/-- Bounty 1 (incomplete) with entry 10 that has no owning user. -/
def orphanState : SysState :=
  { db :=
      { bounties := [⟨1, false⟩],
        entries := [⟨10, 1, none, "entry"⟩],
        benefactors := [⟨1, 2, 50, Currency.BUZZ, none, none⟩],
        files := [], imageConnections := [], images := [] },
    ledger := [] }

/-! ## Generic list lemmas -/

lemma find?_map_of_pred {α : Type} (f : α → α) (p : α → Bool)
    (hp : ∀ x, p (f x) = p x) (l : List α) :
    (l.map f).find? p = (l.find? p).map f := by
  induction l with
  | nil => rfl
  | cons x xs ih =>
    by_cases hx : p x = true
    · rw [List.map_cons, List.find?_cons_of_pos _ (by rw [hp]; exact hx),
        List.find?_cons_of_pos _ hx]
      rfl
    · rw [List.map_cons, List.find?_cons_of_neg _ (by rw [hp]; exact hx),
        List.find?_cons_of_neg _ hx, ih]

/-! ## Inversion of the award success path -/

lemma award_ok_inv {buzzOk : Bool} {now id userId : Nat} {s : SysState}
    {b : BountyBenefactor} {s' : SysState}
    (h : awardBountyEntry buzzOk now id userId s = (.ok b, s')) :
    ∃ entry bounty benefactor owner,
      s.db.findEntry id = some entry ∧
      s.db.findBounty entry.bountyId = some bounty ∧
      entry.userId = some owner ∧
      bounty.complete = false ∧
      s.db.findBenefactor entry.bountyId userId = some benefactor ∧
      benefactor.awardedToId = none ∧
      b = { benefactor with awardedToId := some entry.id, awardedAt := some now } ∧
      (b.currency = Currency.BUZZ →
        buzzOk = true ∧
        s'.ledger = s.ledger ++ [bountyAwardTransfer owner b.unitAmount]) ∧
      (b.currency = Currency.USD → s'.ledger = s.ledger) ∧
      s'.db =
        (if (s.db.applyBenefactorAward entry.bountyId userId entry.id now).hasUnawarded
            b.bountyId then
          s.db.applyBenefactorAward entry.bountyId userId entry.id now
        else
          (s.db.applyBenefactorAward entry.bountyId userId entry.id now).markComplete
            b.bountyId) := by
  simp only [awardBountyEntry, createBuzzTransaction] at h
  cases hE : s.db.findEntry id with
  | none => simp [hE] at h
  | some entry =>
  simp only [hE] at h
  cases hB : s.db.findBounty entry.bountyId with
  | none => simp [hB] at h
  | some bounty =>
  simp only [hB] at h
  cases hU : entry.userId with
  | none => simp [hU] at h
  | some owner =>
  simp only [hU] at h
  cases hc : bounty.complete with
  | true => simp [hc] at h
  | false =>
  simp only [hc, Bool.false_eq_true, if_false] at h
  cases hBen : s.db.findBenefactor entry.bountyId userId with
  | none => simp [hBen] at h
  | some benefactor =>
  simp only [hBen] at h
  cases hAw : benefactor.awardedToId with
  | some v => simp [hAw] at h
  | none =>
  simp only [hAw, Option.isSome_none, Bool.false_eq_true, if_false] at h
  refine ⟨entry, bounty, benefactor, owner, rfl, hB, hU, hc, hBen, hAw, ?_⟩
  cases hcur : benefactor.currency with
  | BUZZ =>
    cases hok : buzzOk with
    | false => simp [hcur, hok] at h
    | true =>
      simp only [hcur, hok, if_true] at h
      cases hun :
          (s.db.applyBenefactorAward entry.bountyId userId entry.id now).hasUnawarded
            benefactor.bountyId with
      | true =>
        simp only [hun, if_true, Prod.mk.injEq, Except.ok.injEq] at h
        obtain ⟨hb, hs⟩ := h
        subst hb
        refine ⟨rfl, fun _ => ⟨rfl, ?_⟩, fun hcur2 => by simp [hcur] at hcur2, ?_⟩
        · rw [← hs]
        · rw [← hs]
          simp [hun]
      | false =>
        simp only [hun, Bool.false_eq_true, if_false, Prod.mk.injEq, Except.ok.injEq] at h
        obtain ⟨hb, hs⟩ := h
        subst hb
        refine ⟨rfl, fun _ => ⟨rfl, ?_⟩, fun hcur2 => by simp [hcur] at hcur2, ?_⟩
        · rw [← hs]
        · rw [← hs]
          simp [hun]
  | USD =>
    simp only [hcur] at h
    cases hun :
        (s.db.applyBenefactorAward entry.bountyId userId entry.id now).hasUnawarded
          benefactor.bountyId with
    | true =>
      simp only [hun, if_true, Prod.mk.injEq, Except.ok.injEq] at h
      obtain ⟨hb, hs⟩ := h
      subst hb
      refine ⟨rfl, fun hcur2 => by simp [hcur] at hcur2, fun _ => ?_, ?_⟩
      · rw [← hs]
      · rw [← hs]
        simp [hun]
    | false =>
      simp only [hun, Bool.false_eq_true, if_false, Prod.mk.injEq, Except.ok.injEq] at h
      obtain ⟨hb, hs⟩ := h
      subst hb
      refine ⟨rfl, fun hcur2 => by simp [hcur] at hcur2, fun _ => ?_, ?_⟩
      · rw [← hs]
      · rw [← hs]
        simp [hun]

/-! ## Error path and update lemmas -/

lemma award_error_or_ok (buzzOk : Bool) (now id userId : Nat) (s : SysState) :
    (∃ e, awardBountyEntry buzzOk now id userId s = (.error e, s)) ∨
    (∃ b s', awardBountyEntry buzzOk now id userId s = (.ok b, s')) := by
  simp only [awardBountyEntry]
  split
  · exact Or.inl ⟨_, rfl⟩
  · right
    split
    · exact ⟨_, _, rfl⟩
    · exact ⟨_, _, rfl⟩

lemma applyBenefactorAward_findBenefactor (db : Db) (B U E n bId uId : Nat) :
    (db.applyBenefactorAward B U E n).findBenefactor bId uId =
      (db.findBenefactor bId uId).map (fun bb =>
        if bb.bountyId == B && bb.userId == U then
          { bb with awardedToId := some E, awardedAt := some n }
        else bb) := by
  unfold Db.applyBenefactorAward Db.findBenefactor
  exact find?_map_of_pred _ _
    (fun bb => by by_cases hbb : (bb.bountyId == B && bb.userId == U) = true <;> simp [hbb]) _

lemma markComplete_findBounty (db : Db) (B i : Nat) :
    (db.markComplete B).findBounty i =
      (db.findBounty i).map (fun b =>
        if b.id == B then { b with complete := true } else b) := by
  unfold Db.markComplete Db.findBounty
  exact find?_map_of_pred _ _
    (fun b => by by_cases hb : (b.id == B) = true <;> simp [hb]) _

/-! ## Claim theorems -/

/-- C1: a successful `awardEntry(entryId, userId)` updates the benefactor row
for (the entry's bounty, userId) to `awardedToId = entryId`,
`awardedAt = now`; when that benefactor's currency is `BUZZ`, exactly one
Payment Ledger transfer of `unitAmount` from the reserved system account 0 to
the entry owner's account, tagged as a Bounty transaction
(`bountyAwardTransfer`), is appended to the ledger; for any other currency
the ledger is untouched. -/
theorem awardEntry_sets_award_and_transfers
    (buzzOk : Bool) (now id userId : Nat) (s : SysState) (b : BountyBenefactor)
    (s' : SysState) (h : awardBountyEntry buzzOk now id userId s = (.ok b, s')) :
    ∃ entry owner,
      s.db.findEntry id = some entry ∧ entry.userId = some owner ∧
      b.bountyId = entry.bountyId ∧ b.userId = userId ∧
      b.awardedToId = some id ∧ b.awardedAt = some now ∧
      s'.db.findBenefactor entry.bountyId userId = some b ∧
      (b.currency = Currency.BUZZ →
        s'.ledger = s.ledger ++ [bountyAwardTransfer owner b.unitAmount]) ∧
      (b.currency ≠ Currency.BUZZ → s'.ledger = s.ledger) := by
  obtain ⟨entry, bounty, benefactor, owner, hE, hB, hU, hc, hBen, hAw, hb, hbuzz, husd,
    hdb⟩ := award_ok_inv h
  have hE2 : s.db.entries.find? (fun e => e.id == id) = some entry := hE
  have hid : entry.id = id := by simpa using List.find?_some hE2
  have hBen2 : s.db.benefactors.find?
      (fun bb => bb.bountyId == entry.bountyId && bb.userId == userId) = some benefactor :=
    hBen
  have hkey : benefactor.bountyId = entry.bountyId ∧ benefactor.userId = userId := by
    simpa using List.find?_some hBen2
  refine ⟨entry, owner, hE, hU, ?_, ?_, ?_, ?_, ?_, ?_, ?_⟩
  · rw [hb]; exact hkey.1
  · rw [hb]; exact hkey.2
  · rw [hb, hid]
  · rw [hb]
  · -- the updated row is what the post-state benefactor lookup returns
    have hbens : s'.db.benefactors =
        (s.db.applyBenefactorAward entry.bountyId userId entry.id now).benefactors := by
      rw [hdb]; split <;> rfl
    have hfind : s'.db.findBenefactor entry.bountyId userId =
        (s.db.applyBenefactorAward entry.bountyId userId entry.id now).findBenefactor
          entry.bountyId userId := by
      unfold Db.findBenefactor
      rw [hbens]
    rw [hfind, applyBenefactorAward_findBenefactor, hBen]
    have hcond : (benefactor.bountyId == entry.bountyId && benefactor.userId == userId)
        = true := by
      simp [hkey.1, hkey.2]
    simp only [Option.map_some', hcond, if_true, hb]
  · intro hbz
    have : benefactor.currency = Currency.BUZZ := by
      have : b.currency = benefactor.currency := by rw [hb]
      rw [← this, hbz]
    exact (hbuzz hbz).2
  · intro hbz
    have hcur : b.currency = Currency.USD := by
      cases hcb : b.currency
      · exact absurd hcb hbz
      · rfl
    exact husd hcur

/-- Witness for C1: user 2 awards entry 10 on the two-benefactor sample
state. -/
theorem awardEntry_sets_award_and_transfers_witness :
    ∃ entry owner,
      sampleState.db.findEntry 10 = some entry ∧ entry.userId = some owner ∧
      sampleAwarded.bountyId = entry.bountyId ∧ sampleAwarded.userId = 2 ∧
      sampleAwarded.awardedToId = some 10 ∧ sampleAwarded.awardedAt = some 7 ∧
      samplePost.db.findBenefactor entry.bountyId 2 = some sampleAwarded ∧
      (sampleAwarded.currency = Currency.BUZZ →
        samplePost.ledger = sampleState.ledger ++
          [bountyAwardTransfer owner sampleAwarded.unitAmount]) ∧
      (sampleAwarded.currency ≠ Currency.BUZZ →
        samplePost.ledger = sampleState.ledger) :=
  awardEntry_sets_award_and_transfers true 7 10 2 sampleState sampleAwarded samplePost
    (by rfl)

lemma hasUnawarded_true_exists (db : Db) (B : Nat) (h : db.hasUnawarded B = true) :
    ∃ bb ∈ db.benefactors, bb.bountyId = B ∧ bb.awardedToId = none := by
  unfold Db.hasUnawarded at h
  rw [Option.isSome_iff_exists] at h
  obtain ⟨bb, hfind⟩ := h
  have hm := List.mem_of_find?_eq_some hfind
  have hp := List.find?_some hfind
  simp only [Bool.and_eq_true, beq_iff_eq] at hp
  exact ⟨bb, hm, hp.2, hp.1⟩

lemma hasUnawarded_false_iff (db : Db) (B : Nat) :
    db.hasUnawarded B = false ↔
      ∀ bb ∈ db.benefactors, bb.bountyId = B → bb.awardedToId ≠ none := by
  unfold Db.hasUnawarded
  rw [← Bool.not_eq_true, Option.not_isSome_iff_eq_none, List.find?_eq_none]
  constructor
  · intro h bb hm hB hn
    have := h bb hm
    simp [hn, hB] at this
  · intro h bb hm
    simp only [Bool.and_eq_true, beq_iff_eq, not_and]
    intro h1 h2
    exact (h bb hm h2) h1

/-- C2: after a successful `awardEntry`, the parent bounty's `complete` flag
is true exactly when no benefactor of that bounty is left with
`awardedToId = null`. -/
theorem awardEntry_completion_iff_all_awarded
    (buzzOk : Bool) (now id userId : Nat) (s : SysState) (b : BountyBenefactor)
    (s' : SysState) (h : awardBountyEntry buzzOk now id userId s = (.ok b, s'))
    (bounty' : Bounty) (hb' : s'.db.findBounty b.bountyId = some bounty') :
    bounty'.complete = true ↔
      ∀ bb ∈ s'.db.benefactors, bb.bountyId = b.bountyId → bb.awardedToId ≠ none := by
  obtain ⟨entry, bounty, benefactor, owner, hE, hB, hU, hc, hBen, hAw, hb, hbuzz, husd,
    hdb⟩ := award_ok_inv h
  have hBen2 : s.db.benefactors.find?
      (fun bb => bb.bountyId == entry.bountyId && bb.userId == userId) = some benefactor :=
    hBen
  have hkey : benefactor.bountyId = entry.bountyId ∧ benefactor.userId = userId := by
    simpa using List.find?_some hBen2
  have hbid : b.bountyId = entry.bountyId := by rw [hb]; exact hkey.1
  have hB2 : s.db.bounties.find? (fun bo => bo.id == entry.bountyId) = some bounty := hB
  have hBid : bounty.id = entry.bountyId := by simpa using List.find?_some hB2
  have hbens : s'.db.benefactors =
      (s.db.applyBenefactorAward entry.bountyId userId entry.id now).benefactors := by
    rw [hdb]; split <;> rfl
  cases hun : (s.db.applyBenefactorAward entry.bountyId userId entry.id now).hasUnawarded
      b.bountyId with
  | true =>
    have hdb' : s'.db = s.db.applyBenefactorAward entry.bountyId userId entry.id now := by
      rw [hdb, hun]; simp
    rw [hdb'] at hb'
    have hsame : (s.db.applyBenefactorAward entry.bountyId userId entry.id now).findBounty
        b.bountyId = s.db.findBounty b.bountyId := rfl
    rw [hsame, hbid, hB] at hb'
    have hbty : bounty = bounty' := Option.some.inj hb'
    constructor
    · intro hct
      rw [← hbty, hc] at hct
      simp at hct
    · intro hall
      exfalso
      obtain ⟨bb, hm, hBB, hnone⟩ := hasUnawarded_true_exists _ _ hun
      have hm' : bb ∈ s'.db.benefactors := by rw [hbens]; exact hm
      exact (hall bb hm' hBB) hnone
  | false =>
    have hdb' : s'.db = (s.db.applyBenefactorAward entry.bountyId userId entry.id
        now).markComplete b.bountyId := by
      rw [hdb, hun]; simp
    rw [hdb', markComplete_findBounty] at hb'
    have hsame : (s.db.applyBenefactorAward entry.bountyId userId entry.id now).findBounty
        b.bountyId = s.db.findBounty b.bountyId := rfl
    rw [hsame, hbid, hB] at hb'
    simp only [Option.map_some'] at hb'
    have hcond : (bounty.id == entry.bountyId) = true := by simp [hBid]
    rw [if_pos hcond] at hb'
    have hbty : { bounty with complete := true } = bounty' := Option.some.inj hb'
    constructor
    · intro _
      intro bb hm hBB
      have hm' : bb ∈ (s.db.applyBenefactorAward entry.bountyId userId entry.id
          now).benefactors := by rw [← hbens]; exact hm
      exact (hasUnawarded_false_iff _ _).mp hun bb hm' hBB
    · intro _
      rw [← hbty]

/-- Witness for C2: user 2 awards entry 10 while user 3's pledge is still
unawarded, so the bounty's flag stays false and the equivalence is
exercised. -/
theorem awardEntry_completion_iff_all_awarded_witness :
    (Bounty.mk 1 false).complete = true ↔
      ∀ bb ∈ samplePost.db.benefactors, bb.bountyId = sampleAwarded.bountyId →
        bb.awardedToId ≠ none :=
  awardEntry_completion_iff_all_awarded true 7 10 2 sampleState sampleAwarded samplePost
    (by rfl) ⟨1, false⟩ (by rfl)

/-- C3: a non-null `awardedToId` is never cleared or reassigned by any
operation of the workflow (award, delete, upsert), and a second `awardEntry`
naming an already-awarded benefactor fails with InvalidState and changes
nothing. -/
theorem benefactor_award_immutable :
    (∀ (buzzOk : Bool) (now id userId : Nat) (s : SysState)
        (r : Except BountyError BountyBenefactor) (s' : SysState) (bId uId : Nat)
        (bb : BountyBenefactor) (e : Nat),
      awardBountyEntry buzzOk now id userId s = (r, s') →
      s.db.findBenefactor bId uId = some bb → bb.awardedToId = some e →
      s'.db.findBenefactor bId uId = some bb) ∧
    (∀ (db : Db) (i : Nat), ((deleteBountyEntry db i).2).benefactors = db.benefactors) ∧
    (∀ (db : Db) (i : Option Nat) (bountyId userId : Nat) (description : String)
        (files : Option (List EntityFile)) (images : Option (List Nat)) (newId : Nat),
      ((upsertBountyEntry db i bountyId userId description files images
          newId).2).benefactors = db.benefactors) ∧
    (∀ (buzzOk : Bool) (now id userId : Nat) (s : SysState) (entry : BountyEntry)
        (bounty : Bounty) (u : Nat) (bb : BountyBenefactor) (e : Nat),
      s.db.findEntry id = some entry →
      s.db.findBounty entry.bountyId = some bounty →
      entry.userId = some u → bounty.complete = false →
      s.db.findBenefactor entry.bountyId userId = some bb →
      bb.awardedToId = some e →
      awardBountyEntry buzzOk now id userId s =
        (.error (.badRequest "Supporters has already awarded an entry."), s)) := by
  refine ⟨?_, ?_, ?_, ?_⟩
  · intro buzzOk now id userId s r s' bId uId bb e h hfind hbbe
    rcases award_error_or_ok buzzOk now id userId s with ⟨e', he⟩ | ⟨b, s'', hok⟩
    · have hsnd : s = s' := congrArg Prod.snd (he.symm.trans h)
      rw [← hsnd]
      exact hfind
    · have hsnd : s'' = s' := congrArg Prod.snd (hok.symm.trans h)
      rw [← hsnd]
      obtain ⟨entry, bounty, benefactor, owner, hE, hB, hU, hc, hBen, hAw, hb, _, _,
        hdb⟩ := award_ok_inv hok
      have hbens : s''.db.benefactors =
          (s.db.applyBenefactorAward entry.bountyId userId entry.id now).benefactors := by
        rw [hdb]; split <;> rfl
      have hfind' : s''.db.findBenefactor bId uId =
          (s.db.applyBenefactorAward entry.bountyId userId entry.id now).findBenefactor
            bId uId := by
        unfold Db.findBenefactor
        rw [hbens]
      rw [hfind', applyBenefactorAward_findBenefactor, hfind]
      simp only [Option.map_some']
      have hfind2 : s.db.benefactors.find?
          (fun x => x.bountyId == bId && x.userId == uId) = some bb := hfind
      have hkey2 : bb.bountyId = bId ∧ bb.userId = uId := by
        simpa using List.find?_some hfind2
      by_cases hcond : (bb.bountyId == entry.bountyId && bb.userId == userId) = true
      · exfalso
        simp only [Bool.and_eq_true, beq_iff_eq] at hcond
        have hbid : bId = entry.bountyId := by rw [← hkey2.1, hcond.1]
        have huid : uId = userId := by rw [← hkey2.2, hcond.2]
        rw [hbid, huid, hBen] at hfind
        have hbb : benefactor = bb := Option.some.inj hfind
        rw [← hbb, hAw] at hbbe
        exact Option.noConfusion hbbe
      · rw [if_neg hcond]
  · intro db i
    simp only [deleteBountyEntry]
    split
    · rfl
    · split
      · rfl
      · split
        · rfl
        · rfl
  · intro db i bountyId userId description files images newId
    simp only [upsertBountyEntry, updateEntityFiles, createEntityImages]
    repeat' split
    all_goals rfl
  · intro buzzOk now id userId s entry bounty u bb e hE hB hU hc hBen hAw
    simp [awardBountyEntry, hE, hB, hU, hc, hBen, hAw]

/-- Witness for C3: user 2's awarded pledge survives a failed award by user 3,
a delete, and an upsert, and user 2's second award attempt is rejected. -/
theorem benefactor_award_immutable_witness :
    buzzAwardState.db.findBenefactor 1 2 =
        some ⟨1, 2, 50, Currency.BUZZ, some 10, some 0⟩ ∧
    (deleteBountyEntry buzzAwardDb 10).2.benefactors = buzzAwardDb.benefactors ∧
    (upsertBountyEntry sampleDb (some 10) 1 100 "new" none none
        99).2.benefactors = sampleDb.benefactors ∧
    awardBountyEntry true 9 10 2 buzzAwardState =
      (.error (.badRequest "Supporters has already awarded an entry."),
        buzzAwardState) :=
  ⟨benefactor_award_immutable.1 true 9 10 3 buzzAwardState (.error .notFound)
      buzzAwardState 1 2 ⟨1, 2, 50, Currency.BUZZ, some 10, some 0⟩ 10 (by rfl)
      (by rfl) (by rfl),
    benefactor_award_immutable.2.1 buzzAwardDb 10,
    benefactor_award_immutable.2.2.1 sampleDb (some 10) 1 100 "new" none none 99,
    benefactor_award_immutable.2.2.2 true 9 10 2 buzzAwardState
      ⟨10, 1, some 100, "entry"⟩ ⟨1, false⟩ 100
      ⟨1, 2, 50, Currency.BUZZ, some 10, some 0⟩ 10 (by rfl) (by rfl) (by rfl)
      (by rfl) (by rfl) (by rfl)⟩

/-- C4: when the entry exists but its parent bounty is already complete,
`awardEntry` fails with InvalidState (a `badRequest`) whatever the caller's
benefactor state, and the state is untouched. -/
theorem awardEntry_complete_bounty_rejected
    (buzzOk : Bool) (now id userId : Nat) (s : SysState) (entry : BountyEntry)
    (bounty : Bounty) (hE : s.db.findEntry id = some entry)
    (hB : s.db.findBounty entry.bountyId = some bounty)
    (hc : bounty.complete = true) :
    ∃ msg, awardBountyEntry buzzOk now id userId s =
      (.error (.badRequest msg), s) := by
  cases hU : entry.userId with
  | none => exact ⟨"Entry has no user.", by simp [awardBountyEntry, hE, hB, hU]⟩
  | some u =>
    exact ⟨"Bounty is already complete.", by simp [awardBountyEntry, hE, hB, hU, hc]⟩

/-- Witness for C4: awarding entry 10 of the completed bounty fails and leaves
the state alone. -/
theorem awardEntry_complete_bounty_rejected_witness :
    ∃ msg, awardBountyEntry true 0 10 2 completeState =
      (.error (.badRequest msg), completeState) :=
  awardEntry_complete_bounty_rejected true 0 10 2 completeState
    ⟨10, 1, some 100, "entry"⟩ ⟨1, true⟩ (by rfl) (by rfl) (by rfl)

/-- Counterexample to C7 as stated: with no entry 5 in the database, the award
fails with the NotFound error of `findUniqueOrThrow`, not with InvalidState
(`badRequest`). -/
theorem awardEntry_missing_entry_not_invalidState :
    (awardBountyEntry true 0 5 7 emptyState).1 = .error .notFound ∧
    isInvalidState (awardBountyEntry true 0 5 7 emptyState).1 = false :=
  ⟨rfl, rfl⟩

/-- C7 amended: `awardEntry` fails with NotFound when the referenced entry
does not exist, and with InvalidState when the entry exists but has no owning
user. -/
theorem awardEntry_missing_entry_notFound_no_user_invalidState :
    (∀ (buzzOk : Bool) (now id userId : Nat) (s : SysState),
      s.db.findEntry id = none →
      awardBountyEntry buzzOk now id userId s = (.error .notFound, s)) ∧
    (∀ (buzzOk : Bool) (now id userId : Nat) (s : SysState) (entry : BountyEntry)
        (bounty : Bounty),
      s.db.findEntry id = some entry →
      s.db.findBounty entry.bountyId = some bounty →
      entry.userId = none →
      awardBountyEntry buzzOk now id userId s =
        (.error (.badRequest "Entry has no user."), s)) := by
  constructor
  · intro buzzOk now id userId s hE
    simp [awardBountyEntry, hE]
  · intro buzzOk now id userId s entry bounty hE hB hU
    simp [awardBountyEntry, hE, hB, hU]

/-- Witness for C7: entry 5 is absent from the empty state, and entry 10 of
`orphanState` has no user. -/
theorem awardEntry_missing_entry_notFound_no_user_invalidState_witness :
    awardBountyEntry true 0 5 7 emptyState = (.error .notFound, emptyState) ∧
    awardBountyEntry true 0 10 2 orphanState =
      (.error (.badRequest "Entry has no user."), orphanState) :=
  ⟨awardEntry_missing_entry_notFound_no_user_invalidState.1 true 0 5 7 emptyState
      (by rfl),
    awardEntry_missing_entry_notFound_no_user_invalidState.2 true 0 10 2 orphanState
      ⟨10, 1, none, "entry"⟩ ⟨1, false⟩ (by rfl) (by rfl) (by rfl)⟩

/-- C8: the `complete` flag is monotonic — a bounty that is complete stays
complete across every operation of the workflow; delete and upsert do not
touch bounty rows at all. -/
theorem bounty_complete_monotonic :
    (∀ (buzzOk : Bool) (now id userId : Nat) (s : SysState)
        (r : Except BountyError BountyBenefactor) (s' : SysState) (i : Nat)
        (bo : Bounty),
      awardBountyEntry buzzOk now id userId s = (r, s') →
      s.db.findBounty i = some bo → bo.complete = true →
      ∃ bo', s'.db.findBounty i = some bo' ∧ bo'.complete = true) ∧
    (∀ (db : Db) (i : Nat), ((deleteBountyEntry db i).2).bounties = db.bounties) ∧
    (∀ (db : Db) (i : Option Nat) (bountyId userId : Nat) (description : String)
        (files : Option (List EntityFile)) (images : Option (List Nat)) (newId : Nat),
      ((upsertBountyEntry db i bountyId userId description files images
          newId).2).bounties = db.bounties) := by
  refine ⟨?_, ?_, ?_⟩
  · intro buzzOk now id userId s r s' i bo h hBo hct
    rcases award_error_or_ok buzzOk now id userId s with ⟨e', he⟩ | ⟨b, s'', hok⟩
    · have hsnd : s = s' := congrArg Prod.snd (he.symm.trans h)
      exact ⟨bo, by rw [← hsnd]; exact hBo, hct⟩
    · have hsnd : s'' = s' := congrArg Prod.snd (hok.symm.trans h)
      obtain ⟨entry, bounty, benefactor, owner, hE, hB, hU, hc, hBen, hAw, hb, _, _,
        hdb⟩ := award_ok_inv hok
      rw [← hsnd]
      cases hun : (s.db.applyBenefactorAward entry.bountyId userId entry.id
          now).hasUnawarded b.bountyId with
      | true =>
        have hdb' : s''.db =
            s.db.applyBenefactorAward entry.bountyId userId entry.id now := by
          rw [hdb, hun]; simp
        refine ⟨bo, ?_, hct⟩
        rw [hdb']
        exact hBo
      | false =>
        have hdb' : s''.db = (s.db.applyBenefactorAward entry.bountyId userId entry.id
            now).markComplete b.bountyId := by
          rw [hdb, hun]; simp
        rw [hdb', markComplete_findBounty]
        have hsame : (s.db.applyBenefactorAward entry.bountyId userId entry.id
            now).findBounty i = s.db.findBounty i := rfl
        rw [hsame, hBo]
        simp only [Option.map_some']
        by_cases hio : (bo.id == b.bountyId) = true
        · exact ⟨_, by rw [if_pos hio], rfl⟩
        · exact ⟨bo, by rw [if_neg hio], hct⟩
  · intro db i
    simp only [deleteBountyEntry]
    split
    · rfl
    · split
      · rfl
      · split
        · rfl
        · rfl
  · intro db i bountyId userId description files images newId
    simp only [upsertBountyEntry, updateEntityFiles, createEntityImages]
    repeat' split
    all_goals rfl

/-- Witness for C8: the completed bounty stays complete through a failed
award, and delete/upsert keep the bounty table intact. -/
theorem bounty_complete_monotonic_witness :
    (∃ bo', completeState.db.findBounty 1 = some bo' ∧ bo'.complete = true) ∧
    (deleteBountyEntry buzzAwardDb 10).2.bounties = buzzAwardDb.bounties ∧
    (upsertBountyEntry sampleDb (some 10) 1 100 "new" none none
        99).2.bounties = sampleDb.bounties :=
  ⟨bounty_complete_monotonic.1 true 0 10 2 completeState
      (.error (.badRequest "Bounty is already complete.")) completeState 1 ⟨1, true⟩
      (by rfl) (by rfl) (by rfl),
    bounty_complete_monotonic.2.1 buzzAwardDb 10,
    bounty_complete_monotonic.2.2 sampleDb (some 10) 1 100 "new" none none 99⟩

/-- C9: a failing `awardEntry` or `deleteEntry` rolls every database effect
back — the database equals its pre-call value (for the award even the ledger
is unchanged, because in this code no step after a successful external
transfer can fail). -/
theorem failed_calls_leave_database_unchanged :
    (∀ (buzzOk : Bool) (now id userId : Nat) (s : SysState) (e : BountyError)
        (s' : SysState),
      awardBountyEntry buzzOk now id userId s = (.error e, s') →
      s'.db = s.db ∧ s'.ledger = s.ledger) ∧
    (∀ (db : Db) (i : Nat) (e : BountyError) (db' : Db),
      deleteBountyEntry db i = (.error e, db') → db' = db) := by
  constructor
  · intro buzzOk now id userId s e s' h
    rcases award_error_or_ok buzzOk now id userId s with ⟨e', he⟩ | ⟨b, s'', hok⟩
    · have hsnd : s = s' := congrArg Prod.snd (he.symm.trans h)
      rw [← hsnd]
      exact ⟨rfl, rfl⟩
    · have hfst := congrArg Prod.fst (hok.symm.trans h)
      simp at hfst
  · intro db i e db' h
    simp only [deleteBountyEntry] at h
    split at h
    · exact (congrArg Prod.snd h).symm
    · split at h
      · exact (congrArg Prod.snd h).symm
      · split at h
        · exact (congrArg Prod.snd h).symm
        · have hfst := congrArg Prod.fst h
          simp at hfst

/-- Witness for C9: a failed external transfer aborts the award and leaves the
sample state intact, and deleting the awarded entry leaves `buzzAwardDb`
intact. -/
theorem failed_calls_leave_database_unchanged_witness :
    (sampleState.db = sampleState.db ∧ sampleState.ledger = sampleState.ledger) ∧
    buzzAwardDb = buzzAwardDb :=
  ⟨failed_calls_leave_database_unchanged.1 false 7 10 2 sampleState .externalFailure
      sampleState (by rfl),
    failed_calls_leave_database_unchanged.2 buzzAwardDb 10
      (.badRequest
        "This bounty entry has been awarded by some users and as such, cannot be deleted.")
      buzzAwardDb (by rfl)⟩

lemma earned_head (db : Db) (i : Nat) (entry : BountyEntry) (c : Currency)
    (hE : db.findEntry i = some entry) :
    (getBountyEntryEarnedBuzz db [entry.id] c).head? =
      some (entry.id, earnedUnitAmount db entry.id c) := by
  have hE2 : db.entries.find? (fun e => e.id == i) = some entry := hE
  have hid : entry.id = i := by simpa using List.find?_some hE2
  simp [getBountyEntryEarnedBuzz, hid, hE]

/-- Counterexample to C5 as stated: entry 10 has received a 50-USD award, so
its summed awarded pledge amounts are 50 and nonzero, yet `deleteBountyEntry`
succeeds and removes the entry — the code only counts BUZZ-currency awards. -/
theorem deleteEntry_nonbuzz_award_still_deleted :
    awardedPledgeSum usdAwardDb 10 = 50 ∧
    (deleteBountyEntry usdAwardDb 10).1 = .ok ⟨10, 1, some 100, "entry"⟩ ∧
    (deleteBountyEntry usdAwardDb 10).2.entries = [] :=
  ⟨rfl, rfl, rfl⟩

/-- C5 amended: `deleteEntry` fails with InvalidState and performs no mutation
whenever the entry's awarded funds in the BUZZ currency are nonzero; when that
BUZZ sum is zero it succeeds and deletes the entry with its tagged files,
image links and connected images, leaving bounties and benefactors alone. -/
theorem deleteEntry_guard (db : Db) (i : Nat) (entry : BountyEntry)
    (hE : db.findEntry i = some entry) :
    (0 < earnedUnitAmount db entry.id Currency.BUZZ →
      deleteBountyEntry db i =
        (.error (.badRequest
          "This bounty entry has been awarded by some users and as such, cannot be deleted."),
          db)) ∧
    (earnedUnitAmount db entry.id Currency.BUZZ = 0 →
      (deleteBountyEntry db i).1 = .ok entry ∧
      ((deleteBountyEntry db i).2).findEntry i = none ∧
      (∀ f ∈ ((deleteBountyEntry db i).2).files,
        ¬(f.entityId = i ∧ f.entityType = "BountyEntry")) ∧
      (∀ c ∈ ((deleteBountyEntry db i).2).imageConnections,
        ¬(c.entityId = i ∧ c.entityType = "BountyEntry")) ∧
      (∀ c ∈ db.imageConnections, c.entityId = i → c.entityType = "BountyEntry" →
        ∀ img ∈ ((deleteBountyEntry db i).2).images, img.id ≠ c.imageId) ∧
      ((deleteBountyEntry db i).2).bounties = db.bounties ∧
      ((deleteBountyEntry db i).2).benefactors = db.benefactors) := by
  have hhead := earned_head db i entry Currency.BUZZ hE
  constructor
  · intro hpos
    simp only [deleteBountyEntry, hE, hhead]
    rw [if_pos hpos]
  · intro h0
    simp only [deleteBountyEntry, hE, hhead, h0, gt_iff_lt, Nat.lt_irrefl, if_false]
    refine ⟨by trivial, ?_, ?_, ?_, ?_, by trivial, by trivial⟩
    · apply List.find?_eq_none.mpr
      intro e he
      have h2 := (List.mem_filter.mp he).2
      simpa using h2
    · intro f hf
      have h2 := (List.mem_filter.mp hf).2
      rintro ⟨h3, h4⟩
      simp [h3, h4] at h2
    · intro c hc
      have h2 := (List.mem_filter.mp hc).2
      rintro ⟨h3, h4⟩
      simp [h3, h4] at h2
    · intro c hc hci hct img himg heq
      have h2 := (List.mem_filter.mp himg).2
      have hmemIds : c.imageId ∈ (db.imageConnections.filter
          (fun x => x.entityId == i && x.entityType == "BountyEntry")).map
            (fun x => x.imageId) :=
        List.mem_map.mpr ⟨c, List.mem_filter.mpr ⟨hc, by simp [hci, hct]⟩, rfl⟩
      rw [heq] at h2
      simp only [Bool.not_eq_true'] at h2
      have hnot : c.imageId ∉ (db.imageConnections.filter
          (fun x => x.entityId == i && x.entityType == "BountyEntry")).map
            (fun x => x.imageId) := by simpa using h2
      exact hnot hmemIds

/-- Witness for C5: entry 10 of the sample state has zero awarded BUZZ, so the
delete succeeds and scrubs its rows. -/
theorem deleteEntry_guard_witness :
    (deleteBountyEntry sampleDb 10).1 = .ok ⟨10, 1, some 100, "entry"⟩ ∧
    ((deleteBountyEntry sampleDb 10).2).findEntry 10 = none ∧
    (∀ f ∈ ((deleteBountyEntry sampleDb 10).2).files,
      ¬(f.entityId = 10 ∧ f.entityType = "BountyEntry")) ∧
    (∀ c ∈ ((deleteBountyEntry sampleDb 10).2).imageConnections,
      ¬(c.entityId = 10 ∧ c.entityType = "BountyEntry")) ∧
    (∀ c ∈ sampleDb.imageConnections, c.entityId = 10 → c.entityType = "BountyEntry" →
      ∀ img ∈ ((deleteBountyEntry sampleDb 10).2).images, img.id ≠ c.imageId) ∧
    ((deleteBountyEntry sampleDb 10).2).bounties = sampleDb.bounties ∧
    ((deleteBountyEntry sampleDb 10).2).benefactors = sampleDb.benefactors :=
  (deleteEntry_guard sampleDb 10 ⟨10, 1, some 100, "entry"⟩ (by rfl)).2 (by rfl)

lemma gatingBool_eq (bOnly access : Bool) (amount unlock : Nat) :
    (if amount < unlock then false else (if bOnly then access else true)) =
      ((!bOnly || access) && decide (unlock ≤ amount)) := by
  by_cases hlt : amount < unlock
  · simp [hlt, Nat.not_le.mpr hlt]
  · have hle : unlock ≤ amount := Nat.not_lt.mp hlt
    cases bOnly <;> cases access <;> simp [hlt, hle]


lemma isEntryOwner_false {eu u : Option Nat}
    (h : ¬ ∃ x, eu = some x ∧ u = some x) : isEntryOwner eu u = false := by
  cases eu with
  | none => cases u <;> rfl
  | some a =>
    cases u with
    | none => rfl
    | some b =>
      by_cases hab : a = b
      · exact absurd ⟨a, rfl, by rw [hab]⟩ h
      · simp [isEntryOwner, hab]

/-- Counterexample to C6 as stated: entry 10's cumulative awarded amount is 60
(a USD pledge), at least the file's unlock threshold of 50, and the file is
not benefactors-only, so the claim serves the real URL to every caller — yet
the non-owner caller user 3 (whose benefactor row is in BUZZ) receives a null
URL, because the code measures the awarded amount only in the caller's
benefactor currency. -/
theorem listFiles_nonbuzz_award_url_still_nulled :
    awardedPledgeSum mixedGatingDb 10 = 60 ∧
    50 ≤ awardedPledgeSum mixedGatingDb 10 ∧
    getBountyEntryFilteredFiles mixedGatingDb 10 (some 3) false =
      .ok [⟨1, 10, "BountyEntry", none, ⟨false, some 50⟩⟩] :=
  ⟨rfl, by decide, rfl⟩

/-- C6 amended: the entry owner and moderators receive every file with its
URL; any other caller receives each descriptor unchanged except that the URL
is nulled unless the file is not benefactors-only or the caller's benefactor
row is the one awarded to this entry, and the entry's awarded amount in the
caller's benefactor currency (BUZZ when the caller has no benefactor row)
reaches the file's unlock threshold. -/
theorem listFiles_gating (db : Db) (i : Nat) (userId : Option Nat)
    (isModerator : Bool) (entry : BountyEntry) (hE : db.findEntry i = some entry) :
    (((∃ u, entry.userId = some u ∧ userId = some u) ∨ isModerator = true) →
      getBountyEntryFilteredFiles db i userId isModerator =
        .ok ((getFilesByEntity db entry.id "BountyEntry").map
          (fun f => ⟨f.id, f.entityId, f.entityType, some f.url, f.metadata⟩))) ∧
    ((¬ ∃ u, entry.userId = some u ∧ userId = some u) → isModerator = false →
      ∀ (bOpt : Option BountyBenefactor) (amount : Nat),
        bOpt = (match userId with
          | none => none
          | some uid => db.findBenefactor entry.bountyId uid) →
        amount = earnedUnitAmount db entry.id
          (match bOpt with | some bb => bb.currency | none => Currency.BUZZ) →
        getBountyEntryFilteredFiles db i userId isModerator =
          .ok ((getFilesByEntity db entry.id "BountyEntry").map
            (fun f =>
              ⟨f.id, f.entityId, f.entityType,
                if ((!f.metadata.benefactorsOnly ||
                    (match bOpt with
                      | some bb => bb.awardedToId == some entry.id
                      | none => false)) &&
                    decide (f.metadata.unlockAmount.getD 0 ≤ amount)) = true
                then some f.url else none,
                f.metadata⟩))) := by
  constructor
  · intro howner
    rcases howner with ⟨u, hu1, hu2⟩ | hmm
    · have htrue : isEntryOwner entry.userId userId = true := by
        rw [hu1, hu2]; simp [isEntryOwner]
      simp [getBountyEntryFilteredFiles, hE, htrue]
    · simp [getBountyEntryFilteredFiles, hE, hmm]
  · intro hnotowner hm bOpt amount hb ha
    have hfalse : isEntryOwner entry.userId userId = false := isEntryOwner_false hnotowner
    subst hb
    subst ha
    cases userId with
    | none =>
      have hhead := earned_head db i entry Currency.BUZZ hE
      simp only [getBountyEntryFilteredFiles, hE, hfalse, hm, Bool.or_false,
        Bool.false_eq_true, if_false, hhead]
      congr 1
      apply List.map_congr_left
      intro f hf
      simp only [FilteredFile.mk.injEq, true_and, and_true]
      rw [gatingBool_eq, Bool.or_false]
    | some uid =>
      cases hben : db.findBenefactor entry.bountyId uid with
      | none =>
        have hhead := earned_head db i entry Currency.BUZZ hE
        simp only [getBountyEntryFilteredFiles, hE, hfalse, hm, Bool.or_false,
          Bool.false_eq_true, if_false, hben, hhead]
        congr 1
        apply List.map_congr_left
        intro f hf
        simp only [FilteredFile.mk.injEq, true_and, and_true]
        rw [gatingBool_eq, Bool.or_false]
      | some bb =>
        have hhead := earned_head db i entry bb.currency hE
        simp only [getBountyEntryFilteredFiles, hE, hfalse, hm, Bool.or_false,
          Bool.false_eq_true, if_false, hben, hhead]
        congr 1
        apply List.map_congr_left
        intro f hf
        simp only [FilteredFile.mk.injEq, true_and, and_true]
        rw [gatingBool_eq]

/-- Witness for C6: user 3 (a non-awarded benefactor, not the owner) lists the
files of entry 10, whose awarded total is 50: the unlock-100 file is nulled
and the unlock-40 file is served. -/
theorem listFiles_gating_witness :
    getBountyEntryFilteredFiles gatingDb 10 (some 3) false =
      .ok ((getFilesByEntity gatingDb 10 "BountyEntry").map
        (fun f =>
          ⟨f.id, f.entityId, f.entityType,
            if ((!f.metadata.benefactorsOnly ||
                (match (some ⟨1, 3, 70, Currency.BUZZ, none, none⟩ :
                    Option BountyBenefactor) with
                  | some bb => bb.awardedToId == some 10
                  | none => false)) &&
                decide (f.metadata.unlockAmount.getD 0 ≤ 50)) = true
            then some f.url else none,
            f.metadata⟩)) :=
  (listFiles_gating gatingDb 10 (some 3) false ⟨10, 1, some 100, "entry"⟩
      (by rfl)).2 (by simp) rfl
    (some ⟨1, 3, 70, Currency.BUZZ, none, none⟩) 50 (by rfl) (by rfl)

/-- C10: updating an existing entry through `upsertBountyEntry` rewrites only
its description (and, when given, its attached files and images); the entry's
`bountyId` and `userId` and every other table are untouched. -/
theorem upsertEntry_preserves_bounty_and_user (db : Db) (i : Nat)
    (bountyId userId : Nat) (description : String)
    (files : Option (List EntityFile)) (images : Option (List Nat)) (newId : Nat)
    (entry : BountyEntry) (hE : db.findEntry i = some entry) :
    (upsertBountyEntry db (some i) bountyId userId description files images
        newId).1 = .ok { entry with description := description } ∧
    ((upsertBountyEntry db (some i) bountyId userId description files images
        newId).2).findEntry i = some { entry with description := description } ∧
    (∀ e ∈ db.entries, e.id ≠ i →
      e ∈ ((upsertBountyEntry db (some i) bountyId userId description files images
        newId).2).entries) ∧
    ((upsertBountyEntry db (some i) bountyId userId description files images
        newId).2).bounties = db.bounties ∧
    ((upsertBountyEntry db (some i) bountyId userId description files images
        newId).2).benefactors = db.benefactors ∧
    (files = none →
      ((upsertBountyEntry db (some i) bountyId userId description files images
        newId).2).files = db.files) ∧
    (images = none →
      ((upsertBountyEntry db (some i) bountyId userId description files images
          newId).2).images = db.images ∧
      ((upsertBountyEntry db (some i) bountyId userId description files images
          newId).2).imageConnections = db.imageConnections) := by
  have hE2 : db.entries.find? (fun e => e.id == i) = some entry := hE
  have hid : entry.id = i := by simpa using List.find?_some hE2
  have hents : ((upsertBountyEntry db (some i) bountyId userId description files images
      newId).2).entries =
      db.entries.map (fun e =>
        if e.id == i then { e with description := description } else e) := by
    cases files <;> cases images <;>
      simp [upsertBountyEntry, hE, updateEntityFiles, createEntityImages]
  refine ⟨?_, ?_, ?_, ?_, ?_, ?_, ?_⟩
  · cases files <;> cases images <;> simp [upsertBountyEntry, hE]
  · unfold Db.findEntry
    rw [hents, find?_map_of_pred _ _ (fun e => by
        by_cases he : (e.id == i) = true <;> simp [he]), hE2]
    simp [hid]
  · intro e he hne
    rw [hents]
    exact List.mem_map.mpr ⟨e, he, by simp [hne]⟩
  · cases files <;> cases images <;>
      simp [upsertBountyEntry, hE, updateEntityFiles, createEntityImages]
  · cases files <;> cases images <;>
      simp [upsertBountyEntry, hE, updateEntityFiles, createEntityImages]
  · intro hf
    subst hf
    cases images <;> simp [upsertBountyEntry, hE, createEntityImages]
  · intro hi
    subst hi
    cases files <;> simp [upsertBountyEntry, hE, updateEntityFiles]

/-- Witness for C10: rewriting entry 10's description in the sample database
keeps its bounty and owner and every other table. -/
theorem upsertEntry_preserves_bounty_and_user_witness :
    (upsertBountyEntry sampleDb (some 10) 1 100 "new" none none 99).1 =
      .ok { id := 10, bountyId := 1, userId := some 100, description := "new" } ∧
    ((upsertBountyEntry sampleDb (some 10) 1 100 "new" none none
        99).2).findEntry 10 =
      some { id := 10, bountyId := 1, userId := some 100, description := "new" } ∧
    (∀ e ∈ sampleDb.entries, e.id ≠ 10 →
      e ∈ ((upsertBountyEntry sampleDb (some 10) 1 100 "new" none none
        99).2).entries) ∧
    ((upsertBountyEntry sampleDb (some 10) 1 100 "new" none none
        99).2).bounties = sampleDb.bounties ∧
    ((upsertBountyEntry sampleDb (some 10) 1 100 "new" none none
        99).2).benefactors = sampleDb.benefactors ∧
    (none = (none : Option (List EntityFile)) →
      ((upsertBountyEntry sampleDb (some 10) 1 100 "new" none none
        99).2).files = sampleDb.files) ∧
    (none = (none : Option (List Nat)) →
      ((upsertBountyEntry sampleDb (some 10) 1 100 "new" none none
          99).2).images = sampleDb.images ∧
      ((upsertBountyEntry sampleDb (some 10) 1 100 "new" none none
          99).2).imageConnections = sampleDb.imageConnections) :=
  upsertEntry_preserves_bounty_and_user sampleDb 10 1 100 "new" none none 99
    ⟨10, 1, some 100, "entry"⟩ (by rfl)
